import Mathlib

/-!
Verification of the used-car analysis pipeline (`cars_streamlit.py`).

The pandas pipeline is shallowly embedded: a dataframe of listings is a
`List RawListing`; derived columns (`Brand`, `Model`) are functions of a row;
`pd.merge(..., how='left')` becomes a per-row lookup into the fixed
coordinate table; `groupby(...).agg(mean)` becomes grouping over the list with
the arithmetic mean on `ℚ`; `Series.mean` of an empty selection is `none`
(pandas NaN); `nlargest(5, ...)` is a stable descending selection.  Pandas
missing values (NaN produced by `.str.get` past the end of the token list, and
propagated through string concatenation) are embedded as `Option.none`, and
pandas `==` comparison — under which NaN compares unequal to everything,
itself included — is embedded as `pdEq`.  Python's `round` (banker's
rounding to `n` decimal digits) and `str` of the resulting decimal value are
embedded exactly on `ℚ`.
-/

/-- One raw row of `used_cars_data.csv` (only the columns the pipeline uses):
`Name`, `Year`, `Price` (unit: 100,000 INR), `Location`. -/
structure RawListing where
  name : String
  year : Int
  price : ℚ
  location : String
deriving DecidableEq

/-- Auxiliary for `pySplit`: scan the characters, accumulating the current
token in reverse; whitespace ends the token, and empty tokens are dropped. -/
def pySplitAux (cur : List Char) : List Char → List String
  | [] => if cur.isEmpty then [] else [String.mk cur.reverse]
  | c :: cs =>
    if c.isWhitespace then
      if cur.isEmpty then pySplitAux [] cs
      else String.mk cur.reverse :: pySplitAux [] cs
    else pySplitAux (c :: cur) cs

/-- Python `str.split()` with no separator: split on whitespace runs,
discarding empty pieces. -/
def pySplit (s : String) : List String :=
  pySplitAux [] s.data

/-- `cars_df['Brand'] = cars_df.Name.str.split().str.get(0)` —
`.str.get` past the end yields pandas NaN, embedded as `none`. -/
def Brand (r : RawListing) : Option String :=
  (pySplit r.name).get? 0

/-- `cars_df['Model'] = cars_df.Name.str.split().str.get(1) + " " +
cars_df.Name.str.split().str.get(2)` — pandas string concatenation
propagates NaN, so the result is present only when both tokens are. -/
def Model (r : RawListing) : Option String :=
  match (pySplit r.name).get? 1, (pySplit r.name).get? 2 with
  | some t1, some t2 => some (t1 ++ " " ++ t2)
  | _, _ => none

/-- Pandas `==` on a column of possibly-missing strings: NaN compares
unequal to everything, including NaN. -/
def pdEq : Option String → Option String → Bool
  | some a, some b => a == b
  | _, _ => false

/-- Addition on `ℚ` written through `mkRat` so that it evaluates by kernel
reduction (`Rat.add` itself is irreducible); `qadd_eq` below proves it equal
to `+`. -/
def qadd (a b : ℚ) : ℚ :=
  mkRat (a.num * b.den + b.num * a.den) (a.den * b.den)

/-- Multiplication of a rational by a natural number, through `mkRat` so
that it evaluates by kernel reduction; `qmulNat_eq` below proves it equal
to `*`. -/
def qmulNat (a : ℚ) (n : Nat) : ℚ :=
  mkRat (a.num * n) a.den

/-- Division of a rational by a natural number, through `mkRat` so that it
evaluates by kernel reduction; `qdivNat_eq` below proves it equal to `/`. -/
def qdivNat (a : ℚ) (n : Nat) : ℚ :=
  mkRat a.num (a.den * n)

/-- Comparison `a ≤ b` on `ℚ` as an evaluable boolean (cross-multiplied;
`qle_iff` below proves it equivalent to `≤`). -/
def qle (a b : ℚ) : Bool :=
  a.num * (b.den : Int) ≤ b.num * (a.den : Int)

/-- The decimal fraction `m / 10 ^ e` as a rational (used to write the
coordinate table's decimal literals in an evaluable form). -/
def dec (m : Nat) (e : Nat) : ℚ :=
  mkRat m (10 ^ e)

/-- `Series.mean`: arithmetic mean, NaN (`none`) on an empty selection. -/
def listMean (xs : List ℚ) : Option ℚ :=
  if xs.isEmpty then none else some (qdivNat (xs.foldr qadd 0) xs.length)

/-- Auxiliary for `pdUnique`: keep elements not seen before. -/
def pdUniqueAux {α : Type} [DecidableEq α] (seen : List α) : List α → List α
  | [] => []
  | x :: xs => if x ∈ seen then pdUniqueAux seen xs else x :: pdUniqueAux (x :: seen) xs

/-- Pandas `Series.unique()`: distinct values in order of first appearance. -/
def pdUnique {α : Type} [DecidableEq α] (l : List α) : List α :=
  pdUniqueAux [] l

/-- The hand-authored coordinate table `data_cordinates` (11 cities);
`dec m 4` is the decimal literal `m / 10^4`, e.g. Mumbai is
(19.0760, 72.8777). -/
def data_cordinates : List (String × ℚ × ℚ) :=
  [ ("Mumbai", dec 190760 4, dec 728777 4), ("Pune", dec 185204 4, dec 738567 4),
    ("Chennai", dec 130827 4, dec 802707 4), ("Coimbatore", dec 110168 4, dec 769558 4),
    ("Hyderabad", dec 173850 4, dec 784867 4), ("Jaipur", dec 269124 4, dec 757873 4),
    ("Kochi", dec 99312 4, dec 762673 4), ("Kolkata", dec 225726 4, dec 883639 4),
    ("Delhi", dec 286139 4, dec 772090 4), ("Bangalore", dec 129716 4, dec 775946 4),
    ("Ahmedabad", dec 230225 4, dec 725714 4) ]

/-- Coordinate lookup by exact location match (`df_cordinates` keyed on
`Location`; the key is unique in the table). -/
def coordLookup (loc : String) : Option (ℚ × ℚ) :=
  (data_cordinates.find? (fun t => t.1 == loc)).map (fun t => t.2)

/-- `df_cars = pd.merge(cars_df, df_cordinates, on='Location', how='left')`:
every listing survives; coordinates are attached when the location matches,
NaN (`none`) otherwise. -/
def df_cars (ls : List RawListing) : List (RawListing × Option (ℚ × ℚ)) :=
  ls.map (fun r => (r, coordLookup r.location))

/-- Prices of all listings at a given location. -/
def pricesAt (loc : String) (ls : List RawListing) : List ℚ :=
  (ls.filter (fun r => r.location == loc)).map (fun r => r.price)

/-- Round half to even on `ℚ` (Python `round` tie-breaking): `q.floor` when
the fractional part is below one half, `q.floor + 1` above, and the even
neighbour on a tie.  The fractional part `q - q.floor` is
`(q.num - q.floor * q.den) / q.den`, so it is compared with `1/2` by
comparing twice its numerator with the denominator. -/
def roundHalfEven (q : ℚ) : Int :=
  let f := q.floor
  let t := 2 * (q.num - f * (q.den : Int))
  if t < (q.den : Int) then f
  else if (q.den : Int) < t then f + 1
  else if f % 2 = 0 then f else f + 1

/-- Python `round(q, n)`: banker's rounding to `n` decimal digits —
`roundHalfEven (q * 10^n) / 10^n`, with the scaling written through `mkRat`
so that it evaluates by kernel reduction. -/
def pyRound (n : Nat) (q : ℚ) : ℚ :=
  mkRat (roundHalfEven (mkRat (q.num * (10 ^ n : Nat)) q.den)) (10 ^ n)

/-- Decimal digits of the fraction `n / d` with `0 ≤ n < d`, most
significant first, stopping at an exact zero remainder; fuel-bounded
(the fuel is ample for every decimal fraction the pipeline produces). -/
def fracDigits : Nat → Int → Int → String
  | 0, _, _ => ""
  | fuel + 1, n, d =>
    if n = 0 then ""
    else
      (Nat.digitChar ((n * 10) / d).toNat).toString ++
        fracDigits fuel ((n * 10) % d) d

/-- Decimal digits of a natural number, most significant first,
fuel-bounded by the digit count. -/
def natDigits : Nat → Nat → List Char
  | 0, _ => []
  | fuel + 1, n =>
    if n < 10 then [Nat.digitChar n]
    else natDigits fuel (n / 10) ++ [Nat.digitChar (n % 10)]

/-- Decimal string of a natural number. -/
def natStr (n : Nat) : String :=
  String.mk (natDigits 30 n)

/-- Python `str` of a float holding a decimal fraction: sign, then the
integer part of the absolute value, a dot, then the fractional digits with
trailing zeros dropped but at least one digit
(`str(500.0) = "500.0"`, `str(500.05) = "500.05"`).  With `|q| = n / d` in
lowest terms the integer part is `n / d` and the fractional part is
`(n % d) / d`. -/
def pyFloatStr (q : ℚ) : String :=
  let n := q.num.natAbs
  let d := q.den
  let frac := fracDigits 17 ((n % d : Nat) : Int) (d : Int)
  (if q.num < 0 then "-" else "") ++ natStr (n / d) ++ "." ++
    (if frac.isEmpty then "0" else frac)

/-- One row of `df_avg_price_by_city` after the renames and the formatting of
lines 56–61: grouped location with its coordinates, mean price,
`Price_in_thousands = round(Average_Price * 100, 1)` and the display string
`Price = str(Price_in_thousands) + "K"`. -/
structure CityAvg where
  location : String
  latitude : ℚ
  longitude : ℚ
  averagePrice : ℚ
  priceInThousands : ℚ
  priceDisplay : String
deriving DecidableEq

/-- The group keys of `df_cars.groupby(['Location','Latitude','Longitude'])`:
distinct `(Location, Latitude, Longitude)` triples of the merged rows whose
coordinates are present (pandas drops NaN group keys). -/
def mergedKeys (ls : List RawListing) : List (String × ℚ × ℚ) :=
  pdUnique ((df_cars ls).filterMap (fun p => p.2.map (fun c => (p.1.location, c.1, c.2))))

/-- Lexicographic comparison of character lists by code point (Python
string order, used by pandas when sorting group keys). -/
def strLeAux : List Char → List Char → Bool
  | [], _ => true
  | _ :: _, [] => false
  | c :: cs, d :: ds =>
    if c.toNat < d.toNat then true
    else if d.toNat < c.toNat then false
    else strLeAux cs ds

/-- `a ≤ b` on strings, lexicographic by code point. -/
def strLe (a b : String) : Bool :=
  strLeAux a.data b.data

/-- Insert a key triple into a list sorted ascending by location. -/
def insertKey (x : String × ℚ × ℚ) : List (String × ℚ × ℚ) → List (String × ℚ × ℚ)
  | [] => [x]
  | y :: ys => if strLe x.1 y.1 then x :: y :: ys else y :: insertKey x ys

/-- Pandas `groupby(..., sort=True)` orders the group keys; the triples are
ordered by location (coordinates are determined by the location). -/
def sortKeys : List (String × ℚ × ℚ) → List (String × ℚ × ℚ)
  | [] => []
  | x :: xs => insertKey x (sortKeys xs)

/-- Lines 56–61: group the merged frame by `(Location, Latitude, Longitude)`,
average `Price` within each group, and attach the formatted columns. -/
def df_avg_price_by_city (ls : List RawListing) : List CityAvg :=
  (sortKeys (mergedKeys ls)).filterMap (fun k =>
    (listMean (((df_cars ls).filter
        (fun p => p.1.location == k.1 && decide (p.2 = some (k.2.1, k.2.2)))).map
        (fun p => p.1.price))).map
      (fun m =>
        { location := k.1, latitude := k.2.1, longitude := k.2.2,
          averagePrice := m,
          priceInThousands := pyRound 1 (qmulNat m 100),
          priceDisplay := pyFloatStr (pyRound 1 (qmulNat m 100)) ++ "K" }))

/-- One row of `df_avg_price_by_city_new` (lines 100–105): location, mean
price of the (filtered) listings there, `Formatted_Price =
round(Average_Price * 100, 2)` and `Price_K = str(Formatted_Price) + "K"`. -/
structure CityAvgNew where
  location : String
  averagePrice : ℚ
  formattedPrice : ℚ
  priceK : String
deriving DecidableEq

/-- Insert a location into a list sorted ascending. -/
def insertLoc (x : String) : List String → List String
  | [] => [x]
  | y :: ys => if strLe x y then x :: y :: ys else y :: insertLoc x ys

/-- Sorted group keys of `groupby(['Location'])` (pandas sorts keys). -/
def sortLocs : List String → List String
  | [] => []
  | x :: xs => insertLoc x (sortLocs xs)

/-- Lines 100–105: group by `Location`, average `Price`, attach
`Formatted_Price` (two-decimal rounding) and the `Price_K` label. -/
def df_avg_price_by_city_new (ls : List RawListing) : List CityAvgNew :=
  (sortLocs (pdUnique (ls.map (fun r => r.location)))).filterMap (fun loc =>
    (listMean (pricesAt loc ls)).map (fun m =>
      { location := loc, averagePrice := m,
        formattedPrice := pyRound 2 (qmulNat m 100),
        priceK := pyFloatStr (pyRound 2 (qmulNat m 100)) ++ "K" }))

/-- Insert a row into a list sorted descending by `averagePrice`: the row
passes every strictly larger row and lands in front of the first row whose
value is less than or equal to its own (ties keep the incoming row first,
which makes the sort below stable). -/
def insertDesc (x : CityAvgNew) : List CityAvgNew → List CityAvgNew
  | [] => [x]
  | y :: ys => if qle y.averagePrice x.averagePrice then x :: y :: ys
               else y :: insertDesc x ys

/-- Stable descending sort by `averagePrice`. -/
def sortDescByAvg : List CityAvgNew → List CityAvgNew
  | [] => []
  | x :: xs => insertDesc x (sortDescByAvg xs)

/-- `DataFrame.nlargest(n, 'Average_Price')` with the default
`keep='first'`: the first `n` rows of the stable descending order. -/
def nlargest (n : Nat) (l : List CityAvgNew) : List CityAvgNew :=
  (sortDescByAvg l).take n

/-- Line 108: `df_top_5 = df_avg_price_by_city_new.nlargest(5, 'Average_Price')`. -/
def df_top_5 (ls : List RawListing) : List CityAvgNew :=
  nlargest 5 (df_avg_price_by_city_new ls)

/-- Line 90: `cars_df[(cars_df.Brand == b) & (cars_df.Model == m) &
(cars_df.Year == y)]`, with pandas NaN-aware equality on the string
columns. -/
def cars_df_filtered (ls : List RawListing) (b m : Option String) (y : Int) :
    List RawListing :=
  ls.filter (fun r => pdEq (Brand r) b && pdEq (Model r) m && (r.year == y))

/-- Line 93: `average_price = cars_df_filtered['Price'].mean()` (NaN on an
empty selection). -/
def average_price (ls : List RawListing) (b m : Option String) (y : Int) :
    Option ℚ :=
  listMean ((cars_df_filtered ls b m y).map (fun r => r.price))

/-- Line 96: the value rendered in the app, `average_price * 100000`. -/
def display_value (ls : List RawListing) (b m : Option String) (y : Int) :
    Option ℚ :=
  (average_price ls b m y).map (fun q => qmulNat q 100000)

/-- Line 86: `cars_df[cars_df.Brand == selected_Brand].Model.unique()` —
the model domain offered for a brand selection. -/
def models_for (ls : List RawListing) (b : Option String) : List (Option String) :=
  pdUnique ((ls.filter (fun r => pdEq (Brand r) b)).map Model)

/-- Line 87: `cars_df[(cars_df.Brand == b) & (cars_df.Model == m)].Year.unique()`
— the year domain offered for a brand and model selection. -/
def years_for (ls : List RawListing) (b m : Option String) : List Int :=
  pdUnique ((ls.filter (fun r => pdEq (Brand r) b && pdEq (Model r) m)).map
    (fun r => r.year))

/-- Two Mumbai listings priced 4 and 6 (the spec's city-average example). -/
def exMumbai : List RawListing :=
  [ ⟨"Maruti Swift VXI", 2015, 4, "Mumbai"⟩, ⟨"Hyundai i20 Asta", 2016, 6, "Mumbai"⟩ ]

/-- Two Maruti Wagon R 2015 listings priced 4.5 and 5.5 (the spec's
filtered-average example). -/
def exMaruti : List RawListing :=
  [ ⟨"Maruti Wagon R LXI", 2015, dec 45 1, "Mumbai"⟩,
    ⟨"Maruti Wagon R VXI", 2015, dec 55 1, "Pune"⟩ ]

/-- A listing in a city absent from the coordinate table. -/
def rGoa : RawListing := ⟨"Tata Nexon XZ", 2019, 8, "Goa"⟩

/-- A listing whose name has only two whitespace-delimited tokens. -/
def rDatsun : RawListing := ⟨"Datsun GO", 2015, 4, "Mumbai"⟩

/-- Another two-token name: its brand is present but its model is missing. -/
def rHonda : RawListing := ⟨"Honda City", 2017, 6, "Delhi"⟩

/-- A single listing priced 5.0005, on which the one-decimal map label and
the two-decimal bar-chart label visibly differ. -/
def exDiff : List RawListing :=
  [ ⟨"Maruti Swift VXI", 2015, dec 50005 4, "Mumbai"⟩ ]

theorem qadd_eq (a b : ℚ) : qadd a b = a + b := by
  have ha : ((a.den : ℚ)) ≠ 0 := Nat.cast_ne_zero.mpr a.den_nz
  have hb : ((b.den : ℚ)) ≠ 0 := Nat.cast_ne_zero.mpr b.den_nz
  rw [qadd, Rat.mkRat_eq_div]
  push_cast
  conv_rhs => rw [← Rat.num_div_den a, ← Rat.num_div_den b]
  rw [div_add_div _ _ ha hb]
  ring_nf

theorem qmulNat_eq (a : ℚ) (n : Nat) : qmulNat a n = a * n := by
  rw [qmulNat, Rat.mkRat_eq_div]
  push_cast
  rw [mul_div_right_comm, Rat.num_div_den]

theorem qdivNat_eq (a : ℚ) (n : Nat) : qdivNat a n = a / n := by
  rw [qdivNat, Rat.mkRat_eq_div]
  push_cast
  rw [← div_div, Rat.num_div_den]

theorem qle_iff (a b : ℚ) : qle a b = true ↔ a ≤ b := by
  have ha : (0:ℚ) < (a.den : ℚ) := by exact_mod_cast a.den_pos
  have hb : (0:ℚ) < (b.den : ℚ) := by exact_mod_cast b.den_pos
  rw [qle, decide_eq_true_eq]
  constructor
  · intro h
    rw [← Rat.num_div_den a, ← Rat.num_div_den b, div_le_div_iff₀ ha hb]
    exact_mod_cast h
  · intro h
    have h2 := (div_le_div_iff₀ ha hb).mp
      (by rwa [Rat.num_div_den a, Rat.num_div_den b])
    exact_mod_cast h2

theorem foldr_qadd_eq (xs : List ℚ) : xs.foldr qadd 0 = xs.sum := by
  induction xs with
  | nil => simp
  | cons x xs ih => simp [List.foldr_cons, qadd_eq, ih]

theorem listMean_eq {xs : List ℚ} (h : xs ≠ []) :
    listMean xs = some (xs.sum / (xs.length : ℚ)) := by
  rw [listMean, if_neg (by simpa [List.isEmpty_iff] using h), qdivNat_eq,
    foldr_qadd_eq]

theorem listMean_nil : listMean [] = none := rfl

theorem pdEq_some (o : Option String) (s : String) :
    pdEq o (some s) = true ↔ o = some s := by
  cases o <;> simp [pdEq]

theorem pdEq_none_right (o : Option String) : pdEq o none = false := by
  cases o <;> rfl

theorem mem_pdUniqueAux {α : Type} [DecidableEq α] (x : α) :
    ∀ (l seen : List α), x ∈ pdUniqueAux seen l ↔ x ∈ l ∧ x ∉ seen := by
  intro l
  induction l with
  | nil => simp [pdUniqueAux]
  | cons y ys ih =>
    intro seen
    by_cases hy : y ∈ seen
    · rw [pdUniqueAux, if_pos hy, ih]
      constructor
      · rintro ⟨h1, h2⟩
        exact ⟨List.mem_cons_of_mem _ h1, h2⟩
      · rintro ⟨h1, h2⟩
        rcases List.mem_cons.mp h1 with rfl | h1
        · exact absurd hy h2
        · exact ⟨h1, h2⟩
    · rw [pdUniqueAux, if_neg hy, List.mem_cons, ih, List.mem_cons, List.mem_cons]
      by_cases hxy : x = y
      · subst hxy; simp [hy]
      · simp [hxy]

theorem mem_pdUnique {α : Type} [DecidableEq α] (x : α) (l : List α) :
    x ∈ pdUnique l ↔ x ∈ l := by
  rw [pdUnique, mem_pdUniqueAux]
  simp

theorem mem_insertKey (x k : String × ℚ × ℚ) (l : List (String × ℚ × ℚ)) :
    x ∈ insertKey k l ↔ x = k ∨ x ∈ l := by
  induction l with
  | nil => simp [insertKey]
  | cons y ys ih =>
    rw [insertKey]
    by_cases h : strLe k.1 y.1 = true
    · rw [if_pos h]
      simp
    · rw [if_neg h, List.mem_cons, ih, List.mem_cons]
      tauto

theorem mem_sortKeys (x : String × ℚ × ℚ) (l : List (String × ℚ × ℚ)) :
    x ∈ sortKeys l ↔ x ∈ l := by
  induction l with
  | nil => simp [sortKeys]
  | cons y ys ih =>
    rw [sortKeys, mem_insertKey, ih, List.mem_cons]

theorem mem_insertLoc (x k : String) (l : List String) :
    x ∈ insertLoc k l ↔ x = k ∨ x ∈ l := by
  induction l with
  | nil => simp [insertLoc]
  | cons y ys ih =>
    rw [insertLoc]
    by_cases h : strLe k y = true
    · rw [if_pos h]
      simp
    · rw [if_neg h, List.mem_cons, ih, List.mem_cons]
      tauto

theorem mem_sortLocs (x : String) (l : List String) :
    x ∈ sortLocs l ↔ x ∈ l := by
  induction l with
  | nil => simp [sortLocs]
  | cons y ys ih =>
    rw [sortLocs, mem_insertLoc, ih, List.mem_cons]

theorem length_insertLoc (k : String) (l : List String) :
    (insertLoc k l).length = l.length + 1 := by
  induction l with
  | nil => rfl
  | cons y ys ih =>
    rw [insertLoc]
    by_cases h : strLe k y = true
    · rw [if_pos h]
      simp
    · rw [if_neg h]
      simp [ih]

theorem length_sortLocs (l : List String) : (sortLocs l).length = l.length := by
  induction l with
  | nil => rfl
  | cons y ys ih =>
    rw [sortLocs, length_insertLoc, ih, List.length_cons]

theorem mem_df_cars (p : RawListing × Option (ℚ × ℚ)) (ls : List RawListing) :
    p ∈ df_cars ls ↔ ∃ r ∈ ls, p = (r, coordLookup r.location) := by
  rw [df_cars, List.mem_map]
  constructor
  · rintro ⟨r, hr, rfl⟩
    exact ⟨r, hr, rfl⟩
  · rintro ⟨r, hr, rfl⟩
    exact ⟨r, hr, rfl⟩

theorem coord_of_mem_mergedKeys {k : String × ℚ × ℚ} {ls : List RawListing}
    (h : k ∈ mergedKeys ls) :
    coordLookup k.1 = some (k.2.1, k.2.2) ∧ ∃ r ∈ ls, r.location = k.1 := by
  rw [mergedKeys, mem_pdUnique, List.mem_filterMap] at h
  rcases h with ⟨p, hp, hk⟩
  rcases (mem_df_cars p ls).mp hp with ⟨r, hr, rfl⟩
  rcases Option.map_eq_some'.mp hk with ⟨c, hc, hck⟩
  subst hck
  exact ⟨by simpa using hc, r, hr, rfl⟩

theorem group_prices {loc : String} {la lo : ℚ} (ls : List RawListing)
    (hc : coordLookup loc = some (la, lo)) :
    ((df_cars ls).filter
        (fun p => p.1.location == loc && decide (p.2 = some (la, lo)))).map
      (fun p => p.1.price) = pricesAt loc ls := by
  rw [df_cars, pricesAt, List.filter_map, List.map_map]
  congr 1
  apply List.filter_congr
  intro r _
  by_cases hr : r.location = loc
  · simp [Function.comp, hr, hc]
  · simp [Function.comp, hr]

theorem pricesAt_ne_nil {loc : String} {ls : List RawListing}
    (h : ∃ r ∈ ls, r.location = loc) : pricesAt loc ls ≠ [] := by
  rcases h with ⟨r, hr, rfl⟩
  rw [pricesAt]
  intro hnil
  have : r ∈ ls.filter (fun s => s.location == r.location) :=
    List.mem_filter.mpr ⟨hr, by simp⟩
  rw [List.map_eq_nil_iff] at hnil
  rw [hnil] at this
  exact List.not_mem_nil r this

/-- C1: for every listings dataset, each row of the city-average result
carries the arithmetic mean of `price` over all listings at that row's
location, and its display string is `round(average_price * 100, 1)` rendered
as a decimal numeral with the suffix "K". -/
theorem c1_city_average (ls : List RawListing) (row : CityAvg)
    (h : row ∈ df_avg_price_by_city ls) :
    row.averagePrice =
      (pricesAt row.location ls).sum / ((pricesAt row.location ls).length : ℚ)
    ∧ row.priceDisplay = pyFloatStr (pyRound 1 (row.averagePrice * 100)) ++ "K" := by
  rw [df_avg_price_by_city, List.mem_filterMap] at h
  rcases h with ⟨k, hk, hfk⟩
  rcases Option.map_eq_some'.mp hfk with ⟨m, hm, hrow⟩
  obtain ⟨hc, hex⟩ := coord_of_mem_mergedKeys ((mem_sortKeys k _).mp hk)
  rw [group_prices ls hc, listMean_eq (pricesAt_ne_nil hex)] at hm
  subst hrow
  refine ⟨(Option.some.inj hm).symm, ?_⟩
  dsimp only
  rw [qmulNat_eq]
  norm_cast

/-- Witness for C1: on a dataset of two Mumbai listings priced 4 and 6 the
city-average row for Mumbai has average price 5 and display "500.0K". -/
theorem c1_city_average_witness :
    (⟨"Mumbai", dec 190760 4, dec 728777 4, 5, 500, "500.0K"⟩ : CityAvg) ∈
        df_avg_price_by_city exMumbai
    ∧ (5 : ℚ) =
        (pricesAt "Mumbai" exMumbai).sum / ((pricesAt "Mumbai" exMumbai).length : ℚ)
    ∧ "500.0K" = pyFloatStr (pyRound 1 ((5 : ℚ) * 100)) ++ "K" := by
  have hmem : (⟨"Mumbai", dec 190760 4, dec 728777 4, 5, 500, "500.0K"⟩ : CityAvg) ∈
      df_avg_price_by_city exMumbai := by decide
  have h := c1_city_average exMumbai _ hmem
  exact ⟨hmem, h.1, h.2⟩

/-- C5: the merge is a left join — every listing survives with its
coordinates attached when its location matches the table and `none`
otherwise, and listings whose location is unmatched contribute no row to the
coordinate-grouped city aggregation. -/
theorem c5_left_join (ls : List RawListing) :
    (df_cars ls).length = ls.length
    ∧ (∀ r, r ∈ ls → (r, coordLookup r.location) ∈ df_cars ls)
    ∧ (∀ r, r ∈ ls → coordLookup r.location = none →
        ∀ row, row ∈ df_avg_price_by_city ls → row.location ≠ r.location) := by
  refine ⟨by simp [df_cars], ?_, ?_⟩
  · intro r hr
    exact List.mem_map.mpr ⟨r, hr, rfl⟩
  · intro r _ hnone row hrow hloc
    rw [df_avg_price_by_city, List.mem_filterMap] at hrow
    rcases hrow with ⟨k, hk, hfk⟩
    rcases Option.map_eq_some'.mp hfk with ⟨m, _, hrowk⟩
    obtain ⟨hc, _⟩ := coord_of_mem_mergedKeys ((mem_sortKeys k _).mp hk)
    subst hrowk
    dsimp only at hloc
    rw [hloc, hnone] at hc
    exact Option.noConfusion hc

/-- Witness for C5: a listing in Goa (absent from the coordinate table)
survives the join with `none` coordinates and yields no aggregated row. -/
theorem c5_left_join_witness :
    (df_cars [rGoa]).length = 1
    ∧ (rGoa, (none : Option (ℚ × ℚ))) ∈ df_cars [rGoa]
    ∧ df_avg_price_by_city [rGoa] = [] := by
  have h := c5_left_join [rGoa]
  have hnone : coordLookup rGoa.location = none := by decide
  refine ⟨h.1, ?_, by decide⟩
  have hm := h.2.1 rGoa (by decide)
  rwa [hnone] at hm

/-- C2: the filtered selection contains exactly the listings whose brand,
model and year equal the (string-valued) selection; its average price is the
unweighted mean of `price` over that subset; and the displayed value is that
average multiplied by 100000. -/
theorem c2_filtered_average (ls : List RawListing) (b m : String) (y : Int) :
    (∀ r, r ∈ cars_df_filtered ls (some b) (some m) y ↔
        r ∈ ls ∧ Brand r = some b ∧ Model r = some m ∧ r.year = y)
    ∧ (cars_df_filtered ls (some b) (some m) y ≠ [] →
        average_price ls (some b) (some m) y =
          some ((((cars_df_filtered ls (some b) (some m) y).map
              (fun r => r.price)).sum) /
            ((((cars_df_filtered ls (some b) (some m) y).map
              (fun r => r.price)).length : ℚ))))
    ∧ display_value ls (some b) (some m) y =
        (average_price ls (some b) (some m) y).map (fun q => q * 100000) := by
  refine ⟨?_, ?_, ?_⟩
  · intro r
    rw [cars_df_filtered, List.mem_filter]
    simp only [Bool.and_eq_true, pdEq_some, beq_iff_eq]
    tauto
  · intro hne
    rw [average_price, listMean_eq (by simpa [List.map_eq_nil_iff] using hne)]
  · rw [display_value]
    cases hav : average_price ls (some b) (some m) y with
    | none => rfl
    | some q =>
      simp only [Option.map_some']
      rw [qmulNat_eq]
      norm_cast

/-- Witness for C2: two Maruti Wagon R 2015 listings priced 4.5 and 5.5 give
a non-empty selection, average 5 and displayed value 500000. -/
theorem c2_filtered_average_witness :
    cars_df_filtered exMaruti (some "Maruti") (some "Wagon R") 2015 ≠ []
    ∧ average_price exMaruti (some "Maruti") (some "Wagon R") 2015 =
        some ((((cars_df_filtered exMaruti (some "Maruti") (some "Wagon R") 2015).map
            (fun r => r.price)).sum) /
          ((((cars_df_filtered exMaruti (some "Maruti") (some "Wagon R") 2015).map
            (fun r => r.price)).length : ℚ)))
    ∧ average_price exMaruti (some "Maruti") (some "Wagon R") 2015 = some 5
    ∧ display_value exMaruti (some "Maruti") (some "Wagon R") 2015 = some 500000 := by
  have hne : cars_df_filtered exMaruti (some "Maruti") (some "Wagon R") 2015 ≠ [] := by
    decide
  exact ⟨hne, (c2_filtered_average exMaruti "Maruti" "Wagon R" 2015).2.1 hne,
    by decide, by decide⟩

/-- C7: a selection matching no listing yields an explicitly undefined
average (pandas NaN, embedded `none`), never zero or another default. -/
theorem c7_empty_selection (ls : List RawListing) (b m : String) (y : Int)
    (h : ∀ r, r ∈ ls → ¬(Brand r = some b ∧ Model r = some m ∧ r.year = y)) :
    average_price ls (some b) (some m) y = none := by
  have hnil : cars_df_filtered ls (some b) (some m) y = [] := by
    rw [cars_df_filtered, List.filter_eq_nil_iff]
    intro r hr
    have hnr := h r hr
    simp only [Bool.and_eq_true, pdEq_some, beq_iff_eq]
    tauto
  rw [average_price, hnil]
  rfl

/-- Witness for C7: a Honda selection on a Maruti-only dataset matches
nothing and the average is `none`. -/
theorem c7_empty_selection_witness :
    (∀ r, r ∈ exMaruti → ¬(Brand r = some "Honda" ∧ Model r = some "City" ∧ r.year = 2016))
    ∧ average_price exMaruti (some "Honda") (some "City") 2016 = none := by
  have h : ∀ r, r ∈ exMaruti →
      ¬(Brand r = some "Honda" ∧ Model r = some "City" ∧ r.year = 2016) := by decide
  exact ⟨h, c7_empty_selection exMaruti "Honda" "City" 2016 h⟩

/-- C8: when a name has at least three whitespace-delimited tokens, the
derived brand is the first token and the derived model is the second and
third tokens joined by one space. -/
theorem c8_tokenization (r : RawListing) (h : 3 ≤ (pySplit r.name).length) :
    Brand r = some ((pySplit r.name).get ⟨0, by omega⟩)
    ∧ Model r = some ((pySplit r.name).get ⟨1, by omega⟩ ++ " " ++
        (pySplit r.name).get ⟨2, by omega⟩) := by
  have h1 : (pySplit r.name).get? 1 = some ((pySplit r.name).get ⟨1, by omega⟩) :=
    List.get?_eq_get (by omega)
  have h2 : (pySplit r.name).get? 2 = some ((pySplit r.name).get ⟨2, by omega⟩) :=
    List.get?_eq_get (by omega)
  have h0 : (pySplit r.name).get? 0 = some ((pySplit r.name).get ⟨0, by omega⟩) :=
    List.get?_eq_get (by omega)
  refine ⟨by rw [Brand, h0], ?_⟩
  unfold Model
  rw [h1, h2]

/-- Witness for C8: "Maruti Wagon R LXI" has brand "Maruti" and model
"Wagon R". -/
theorem c8_tokenization_witness :
    3 ≤ (pySplit "Maruti Wagon R LXI").length
    ∧ Brand ⟨"Maruti Wagon R LXI", 2015, 4, "Mumbai"⟩ = some "Maruti"
    ∧ Model ⟨"Maruti Wagon R LXI", 2015, 4, "Mumbai"⟩ = some "Wagon R" := by
  have h := c8_tokenization ⟨"Maruti Wagon R LXI", 2015, 4, "Mumbai"⟩ (by decide)
  exact ⟨by decide, h.1.trans (by decide), h.2.trans (by decide)⟩

/-- C4 (amended): a name with fewer than three tokens still produces a
result, but the model is the missing value `none` (pandas NaN propagated
through the concatenation), not an empty-string join. -/
theorem c4_short_name (r : RawListing) (h : (pySplit r.name).length < 3) :
    Model r = none := by
  have h2 : (pySplit r.name).get? 2 = none := List.get?_eq_none.mpr (by omega)
  unfold Model
  rw [h2]
  cases hh : (pySplit r.name).get? 1 <;> rfl

/-- Witness for C4: the two-token name "Datsun GO" yields a `none` model. -/
theorem c4_short_name_witness :
    (pySplit rDatsun.name).length < 3 ∧ Model rDatsun = none :=
  ⟨by decide, c4_short_name rDatsun (by decide)⟩

/-- Counterexample for C4 as stated: the claim predicts the model of a
two-token name like "Datsun GO" is the second token joined with an empty
string ("GO "), but the code produces the missing value `none`. -/
theorem c4_counterexample : Model rDatsun ≠ some "GO " ∧ Model rDatsun = none :=
  ⟨by decide, by decide⟩

/-- C6 (amended): the model domain for a brand is exactly the distinct
model values (missing included) among that brand's listings; the year
domain is exactly the distinct years among the brand+model listings when
the selected model is an actual string; when the selected model is the
missing value the year domain is empty, because pandas NaN equality never
matches. -/
theorem c6_cascading_domains (ls : List RawListing) (b : String) :
    (∀ mm, mm ∈ models_for ls (some b) ↔
        ∃ r, r ∈ ls ∧ Brand r = some b ∧ Model r = mm)
    ∧ (∀ (m : String) (y : Int), y ∈ years_for ls (some b) (some m) ↔
        ∃ r, r ∈ ls ∧ Brand r = some b ∧ Model r = some m ∧ r.year = y)
    ∧ years_for ls (some b) none = [] := by
  refine ⟨?_, ?_, ?_⟩
  · intro mm
    rw [models_for, mem_pdUnique, List.mem_map]
    constructor
    · rintro ⟨r, hr, rfl⟩
      rcases List.mem_filter.mp hr with ⟨hmem, hp⟩
      exact ⟨r, hmem, (pdEq_some _ _).mp hp, rfl⟩
    · rintro ⟨r, hmem, hb, rfl⟩
      exact ⟨r, List.mem_filter.mpr ⟨hmem, (pdEq_some _ _).mpr hb⟩, rfl⟩
  · intro m y
    rw [years_for, mem_pdUnique, List.mem_map]
    constructor
    · rintro ⟨r, hr, rfl⟩
      rcases List.mem_filter.mp hr with ⟨hmem, hp⟩
      rw [Bool.and_eq_true] at hp
      rcases hp with ⟨hb, hm⟩
      exact ⟨r, hmem, (pdEq_some _ _).mp hb, (pdEq_some _ _).mp hm, rfl⟩
    · rintro ⟨r, hmem, hb, hm, rfl⟩
      refine ⟨r, List.mem_filter.mpr ⟨hmem, ?_⟩, rfl⟩
      rw [Bool.and_eq_true]
      exact ⟨(pdEq_some _ _).mpr hb, (pdEq_some _ _).mpr hm⟩
  · rw [years_for]
    have : ls.filter (fun r => pdEq (Brand r) (some b) && pdEq (Model r) none) = [] := by
      rw [List.filter_eq_nil_iff]
      intro r _
      rw [pdEq_none_right, Bool.and_false]
      exact Bool.false_ne_true
    rw [this]
    rfl

/-- Counterexample for C6 as stated: with the single listing "Honda City"
(2017), the missing model value is offered in the model domain for brand
"Honda", the year 2017 occurs for that brand and model value, yet the year
domain computed for that selection is empty. -/
theorem c6_counterexample :
    none ∈ models_for [rHonda] (some "Honda")
    ∧ (∃ r, r ∈ [rHonda] ∧ Brand r = some "Honda" ∧ Model r = none ∧ r.year = 2017)
    ∧ years_for [rHonda] (some "Honda") none = [] := by
  exact ⟨by decide, ⟨rHonda, by decide, by decide, by decide, by decide⟩, by decide⟩

theorem length_insertDesc (x : CityAvgNew) (l : List CityAvgNew) :
    (insertDesc x l).length = l.length + 1 := by
  induction l with
  | nil => rfl
  | cons y ys ih =>
    rw [insertDesc]
    by_cases h : qle y.averagePrice x.averagePrice = true
    · rw [if_pos h]
      simp
    · rw [if_neg h]
      simp [ih]

theorem length_sortDescByAvg (l : List CityAvgNew) :
    (sortDescByAvg l).length = l.length := by
  induction l with
  | nil => rfl
  | cons y ys ih => rw [sortDescByAvg, length_insertDesc, ih, List.length_cons]

theorem mem_insertDesc (x z : CityAvgNew) (l : List CityAvgNew) :
    z ∈ insertDesc x l ↔ z = x ∨ z ∈ l := by
  induction l with
  | nil => simp [insertDesc]
  | cons y ys ih =>
    rw [insertDesc]
    by_cases h : qle y.averagePrice x.averagePrice = true
    · rw [if_pos h]
      simp
    · rw [if_neg h, List.mem_cons, ih, List.mem_cons]
      tauto

theorem pairwise_insertDesc (x : CityAvgNew) (l : List CityAvgNew)
    (hl : List.Pairwise (fun a b => b.averagePrice ≤ a.averagePrice) l) :
    List.Pairwise (fun a b => b.averagePrice ≤ a.averagePrice) (insertDesc x l) := by
  induction l with
  | nil => simp [insertDesc]
  | cons y ys ih =>
    rcases List.pairwise_cons.mp hl with ⟨hy, hys⟩
    rw [insertDesc]
    by_cases h : qle y.averagePrice x.averagePrice = true
    · rw [if_pos h]
      have hxy : y.averagePrice ≤ x.averagePrice := (qle_iff _ _).mp h
      refine List.pairwise_cons.mpr ⟨?_, hl⟩
      intro z hz
      rcases List.mem_cons.mp hz with rfl | hz
      · exact hxy
      · exact le_trans (hy z hz) hxy
    · rw [if_neg h]
      have hyx : x.averagePrice ≤ y.averagePrice :=
        le_of_not_le (fun hc => h ((qle_iff _ _).mpr hc))
      refine List.pairwise_cons.mpr ⟨?_, ih hys⟩
      intro z hz
      rcases (mem_insertDesc x z ys).mp hz with rfl | hz
      · exact hyx
      · exact hy z hz

theorem pairwise_sortDescByAvg (l : List CityAvgNew) :
    List.Pairwise (fun a b => b.averagePrice ≤ a.averagePrice) (sortDescByAvg l) := by
  induction l with
  | nil => simp [sortDescByAvg]
  | cons y ys ih => exact pairwise_insertDesc y (sortDescByAvg ys) ih

theorem filter_insertDesc (v : ℚ) (x : CityAvgNew) (l : List CityAvgNew) :
    (insertDesc x l).filter (fun r => decide (r.averagePrice = v)) =
      if x.averagePrice = v then
        x :: l.filter (fun r => decide (r.averagePrice = v))
      else l.filter (fun r => decide (r.averagePrice = v)) := by
  induction l with
  | nil =>
    by_cases hx : x.averagePrice = v
    · rw [if_pos hx]
      simp [insertDesc, hx]
    · rw [if_neg hx]
      simp [insertDesc, hx]
  | cons y ys ih =>
    rw [insertDesc]
    by_cases h : qle y.averagePrice x.averagePrice = true
    · rw [if_pos h]
      by_cases hx : x.averagePrice = v
      · rw [if_pos hx]
        simp [List.filter_cons, hx]
      · rw [if_neg hx]
        simp [List.filter_cons, hx]
    · rw [if_neg h]
      have hlt : x.averagePrice < y.averagePrice :=
        lt_of_not_le (fun hc => h ((qle_iff _ _).mpr hc))
      by_cases hx : x.averagePrice = v
      · rw [if_pos hx]
        have hy : ¬ y.averagePrice = v := by
          rw [← hx]
          exact fun hc => absurd hc.symm (ne_of_lt hlt)
        rw [List.filter_cons, List.filter_cons, if_neg (by simpa using hy),
          if_neg (by simpa using hy), ih, if_pos hx]
      · rw [if_neg hx]
        rw [List.filter_cons, List.filter_cons, ih, if_neg hx]

theorem filter_sortDescByAvg (v : ℚ) (l : List CityAvgNew) :
    (sortDescByAvg l).filter (fun r => decide (r.averagePrice = v)) =
      l.filter (fun r => decide (r.averagePrice = v)) := by
  induction l with
  | nil => rfl
  | cons y ys ih =>
    rw [sortDescByAvg, filter_insertDesc, List.filter_cons]
    by_cases hy : y.averagePrice = v
    · rw [if_pos hy, ih]
      simp [hy]
    · rw [if_neg hy, ih]
      simp [hy]

theorem filter_take {α : Type} (p : α → Bool) :
    ∀ (n : Nat) (l : List α), ∃ k, (l.take n).filter p = (l.filter p).take k := by
  intro n l
  induction l generalizing n with
  | nil => exact ⟨0, by simp⟩
  | cons y ys ih =>
    cases n with
    | zero => exact ⟨0, by simp⟩
    | succ n =>
      rcases ih n with ⟨k, hk⟩
      by_cases hy : p y = true
      · refine ⟨k + 1, ?_⟩
        rw [List.take_succ_cons, List.filter_cons, if_pos hy, List.filter_cons,
          if_pos hy, List.take_succ_cons, hk]
      · refine ⟨k, ?_⟩
        rw [List.take_succ_cons, List.filter_cons, if_neg hy, List.filter_cons,
          if_neg hy, hk]

theorem length_filterMap_of_isSome {α β : Type} (f : α → Option β) :
    ∀ l : List α, (∀ x ∈ l, (f x).isSome) → (l.filterMap f).length = l.length := by
  intro l
  induction l with
  | nil => intro _; rfl
  | cons y ys ih =>
    intro h
    rcases Option.isSome_iff_exists.mp (h y (List.mem_cons_self y ys)) with ⟨b, hb⟩
    rw [List.filterMap_cons, hb, List.length_cons,
      ih (fun x hx => h x (List.mem_cons_of_mem y hx)), List.length_cons]

theorem listMean_isSome {xs : List ℚ} (h : xs ≠ []) : (listMean xs).isSome := by
  rw [listMean_eq h]
  rfl

theorem length_df_avg_price_by_city_new (ls : List RawListing) :
    (df_avg_price_by_city_new ls).length =
      (pdUnique (ls.map (fun r => r.location))).length := by
  rw [df_avg_price_by_city_new]
  rw [length_filterMap_of_isSome]
  · exact length_sortLocs _
  · intro loc hloc
    have hmem : loc ∈ ls.map (fun r => r.location) :=
      (mem_pdUnique _ _).mp ((mem_sortLocs _ _).mp hloc)
    rcases List.mem_map.mp hmem with ⟨r, hr, rfl⟩
    have hne : pricesAt r.location ls ≠ [] := pricesAt_ne_nil ⟨r, hr, rfl⟩
    rw [Option.isSome_map']
    exact listMean_isSome hne

/-- C3: the top-cities result is sorted descending by average price and its
length is the minimum of 5 and the number of distinct cities in the
(filtered) input dataset — when fewer than 5 distinct cities exist it is
exactly the available count, and it is always produced. -/
theorem c3_top_five (ls : List RawListing) :
    List.Pairwise (fun a b => b.averagePrice ≤ a.averagePrice) (df_top_5 ls)
    ∧ (df_top_5 ls).length =
        min 5 (pdUnique (ls.map (fun r => r.location))).length := by
  constructor
  · exact (pairwise_sortDescByAvg (df_avg_price_by_city_new ls)).sublist
      (List.take_sublist 5 _)
  · rw [df_top_5, nlargest, List.length_take, length_sortDescByAvg,
      length_df_avg_price_by_city_new]

/-- C9: ranking is stable — within any class of rows sharing one average
price, the rows the top-5 selection keeps are an initial segment of that
class in input order, so two tied cities appear in the output in their input
order. -/
theorem c9_stable_ranking (l : List CityAvgNew) (v : ℚ) :
    ∃ k, (nlargest 5 l).filter (fun r => decide (r.averagePrice = v)) =
      (l.filter (fun r => decide (r.averagePrice = v))).take k := by
  rcases filter_take (fun r => decide (r.averagePrice = v)) 5 (sortDescByAvg l)
    with ⟨k, hk⟩
  exact ⟨k, by rw [nlargest, hk, filter_sortDescByAvg]⟩

/-- C10: each bar-chart row's label is `round(average_price * 100, 2)`
rendered as a string with "K" appended — a two-decimal rounding, which on
the price 5.0005 produces "500.05K" while the map's one-decimal label
produces "500.0K". -/
theorem c10_bar_label (ls : List RawListing) (row : CityAvgNew)
    (h : row ∈ df_avg_price_by_city_new ls) :
    row.priceK = pyFloatStr (pyRound 2 (row.averagePrice * 100)) ++ "K"
    ∧ (df_avg_price_by_city_new exDiff).map (fun r => r.priceK) = ["500.05K"]
    ∧ (df_avg_price_by_city exDiff).map (fun r => r.priceDisplay) = ["500.0K"] := by
  refine ⟨?_, by decide, by decide⟩
  rw [df_avg_price_by_city_new, List.mem_filterMap] at h
  rcases h with ⟨loc, _, hfk⟩
  rcases Option.map_eq_some'.mp hfk with ⟨m, _, hrow⟩
  subst hrow
  dsimp only
  rw [qmulNat_eq]
  norm_cast

/-- Witness for C10: the Mumbai bar-chart row of the two-listing example has
label "500.0K" equal to the formatted two-decimal rounding. -/
theorem c10_bar_label_witness :
    (⟨"Mumbai", 5, 500, "500.0K"⟩ : CityAvgNew) ∈ df_avg_price_by_city_new exMumbai
    ∧ "500.0K" = pyFloatStr (pyRound 2 ((5 : ℚ) * 100)) ++ "K" := by
  have hmem : (⟨"Mumbai", 5, 500, "500.0K"⟩ : CityAvgNew) ∈
      df_avg_price_by_city_new exMumbai := by decide
  exact ⟨hmem, (c10_bar_label exMumbai _ hmem).1⟩
